import Mathlib

/-!
Shallow embedding of `src/detector_ransomware_SOLUCION.py`, a heuristic
ransomware detector: entropy estimation over a bounded file prefix
(`calcular_entropia`), extension-pattern classification (`analizar_fichero`),
directory scan (`recorrer_directorio`) and quarantine relocation
(`mover_a_cuarentena`).

Modelling conventions:
* file bytes are `Nat` values (< 256 where relevant); a file whose open/read
  raises `OSError`/`IOError` is modelled by `contenido = none`;
* `os.walk` input is an optional entry stream: `none` models a scan root that
  does not exist or is not traversable (CPython's `os.walk` is called with the
  default `onerror=None`, which swallows the `scandir` error and yields no
  tuples for such a root);
* wall-clock readings used for collision suffixes are an abstract stream
  `reloj : Nat → String` consumed one reading per `datetime.now()` call;
* whether `shutil.move` raises for a given source/destination pair is an
  abstract oracle `falla : String → String → Bool`;
* floating point arithmetic is idealised as `ℝ`.
-/

namespace Detector

/-- RUTA_CUARENTENA, the quarantine directory (line 18 of the source). -/
def RUTA_CUARENTENA : String := "/cuarentena_ransomware"

/-- MAX_BYTES_LECTURA (line 21): maximum number of bytes read per file. -/
def MAX_BYTES_LECTURA : Nat := 64 * 1024

/-- UMBRAL_ENTROPIA (line 24): entropy threshold for suspicion. -/
noncomputable def UMBRAL_ENTROPIA : ℝ := 7.5

/-- Lowercasing of a string, modelling `str.lower()` and the effect of
`re.IGNORECASE` on the literal regex alternatives (ASCII fragment). -/
def minusculas (s : String) : String := String.mk (s.toList.map Char.toLower)

/-- Index, from the left, of the last '.' in a character list (CPython
`str.rfind('.')` restricted to the found case), `none` when there is no dot. -/
def idxUltimoPunto : List Char → Option Nat
  | [] => none
  | c :: cs =>
      match idxUltimoPunto cs with
      | some i => some (i + 1)
      | none => if c = '.' then some 0 else none

/-- Model of `pathlib.PurePath.suffix` on a final path component: the substring
from the last dot to the end, provided that dot is neither the first nor the
last character; otherwise the empty string. -/
def sufijoDe (nombre : String) : String :=
  match idxUltimoPunto nombre.toList with
  | none => ""
  | some i =>
      if 0 < i ∧ i + 1 < nombre.toList.length then String.mk (nombre.toList.drop i) else ""

/-- Model of `pathlib.PurePath.stem`: the name with `sufijoDe` removed. -/
def stemDe (nombre : String) : String :=
  match idxUltimoPunto nombre.toList with
  | none => nombre
  | some i =>
      if 0 < i ∧ i + 1 < nombre.toList.length then String.mk (nombre.toList.take i) else nombre

/-- Model of `pathlib.PurePath.name`: the final component of a path string. -/
def nombreDe (ruta : String) : String :=
  String.mk ((ruta.toList.reverse.takeWhile fun c => c != '/').reverse)

/-- Word character for the regex class `\w` (ASCII fragment: letters, digits
and underscore). -/
def esPalabra (c : Char) : Bool := c.isAlphanum || c == '_'

/-- Literal alternatives of PATRON_EXTENSION_SOSPECHOSA (lines 27-30), each
anchored at the end of the name by the regex `$`; the remaining alternative
`\.encrypted_\w+$` is handled by `coincideEncryptedMas`. -/
def ALTERNATIVAS_FIJAS : List String :=
  [".locked", ".encrypted", ".crypto", ".enc", ".deadbolt"]

/-- Whether the regex alternative `\.encrypted_\w+$` matches the (lowercased)
name: some nonempty tail of word characters is preceded by ".encrypted_". -/
def coincideEncryptedMas (cs : List Char) : Bool :=
  let cola := (cs.reverse.takeWhile esPalabra).length
  (List.range cola).any fun j =>
    ".encrypted_".toList.isSuffixOf (cs.take (cs.length - (j + 1)))

/-- extension_sospechosa (lines 70-76): `re.search` of the anchored pattern on
the file name, case-insensitively. -/
def extension_sospechosa (nombre : String) : Bool :=
  let n := (minusculas nombre).toList
  (ALTERNATIVAS_FIJAS.any fun alt => alt.toList.isSuffixOf n) || coincideEncryptedMas n

/-- frecuencias (lines 54-56): the per-byte-value counting loop. -/
def frecuencias (datos : List Nat) (b : Nat) : Nat := datos.count b

/-- Entropy accumulation loop of calcular_entropia (lines 58-67): iterate over
the 256 counters, skip zero frequencies, and subtract `p * log2 p`. -/
noncomputable def entropiaShannon (datos : List Nat) : ℝ :=
  ∑ b ∈ Finset.range 256,
    if frecuencias datos b = 0 then 0
    else -((frecuencias datos b : ℝ) / (datos.length : ℝ) *
      Real.logb 2 ((frecuencias datos b : ℝ) / (datos.length : ℝ)))

/-- calcular_entropia (lines 37-67): read at most `maxBytes` bytes; `none`
content (open/read raised) yields `none`; an empty prefix yields `0.0`;
otherwise the Shannon entropy of the prefix. -/
noncomputable def calcular_entropia (contenido : Option (List Nat)) (maxBytes : Nat) :
    Option ℝ :=
  match contenido with
  | none => none
  | some bytes =>
      let datos := bytes.take maxBytes
      if datos = [] then some 0 else some (entropiaShannon datos)

/-- Observable state of one candidate file: its readable content (`none` when
open/read raises) and its stat size (`none` when `stat` raises, line 106). -/
structure Fichero where
  contenido : Option (List Nat)
  tam : Option Int

/-- Dictionary returned by analizar_fichero (lines 109-114). -/
structure Finding where
  ruta : String
  tamano : Int
  entropia : Option ℝ
  motivos : List String

/-- Reason aggregation of analizar_fichero (lines 90-99): the extension check
appends "extension", then the entropy check appends "entropia" when the value
is present and at least UMBRAL_ENTROPIA. -/
noncomputable def motivos_para (nombre : String) (entropia : Option ℝ) : List String :=
  (if extension_sospechosa nombre then ["extension"] else []) ++
    (match entropia with
     | some e => if UMBRAL_ENTROPIA ≤ e then ["entropia"] else []
     | none => [])

/-- analizar_fichero (lines 79-114): classify one file; `none` when no reason
triggers, otherwise the finding with stat size (-1 sentinel on stat failure),
the computed entropy and the reason list. -/
noncomputable def analizar_fichero (ruta : String) (f : Fichero) : Option Finding :=
  let nombre := nombreDe ruta
  let entropia := calcular_entropia f.contenido MAX_BYTES_LECTURA
  let motivos := motivos_para nombre entropia
  if motivos = [] then none
  else some { ruta := ruta, tamano := f.tam.getD (-1), entropia := entropia,
              motivos := motivos }

/-- Excluded extensions of recorrer_directorio (line 131). -/
def EXTENSIONES_EXCLUIDAS : List String := [".jpg", ".jpeg", ".png", ".gif"]

/-- Skip test of recorrer_directorio (line 131):
`ruta_fichero.suffix.lower() in [".jpg", ".jpeg", ".png", ".gif"]`. -/
def esExcluido (nombre : String) : Bool :=
  EXTENSIONES_EXCLUIDAS.contains (minusculas (sufijoDe nombre))

/-- Entry stream of `os.walk(RUTA_BASE)` (line 124): each tuple contributes its
directory string and its file list; `none` (inaccessible root) yields nothing
because `os.walk` runs with `onerror=None`. -/
def os_walk (raiz : Option (List (String × List (String × Fichero)))) :
    List (String × List (String × Fichero)) :=
  match raiz with
  | none => []
  | some arbol => arbol

/-- recorrer_directorio (lines 117-138): walk the tree, skip excluded
extensions, classify the rest and accumulate the findings in visit order. -/
noncomputable def recorrer_directorio
    (raiz : Option (List (String × List (String × Fichero)))) : List Finding :=
  (os_walk raiz).foldl
    (fun sospechosos par =>
      par.2.foldl
        (fun acumulados archivo =>
          if esExcluido archivo.1 then acumulados
          else
            match analizar_fichero (par.1 ++ "/" ++ archivo.1) archivo.2 with
            | some info => acumulados ++ [info]
            | none => acumulados)
        sospechosos)
    []

/-- Quarantine-side filesystem state: whether the quarantine root directory
exists and which file paths exist. -/
structure QFS where
  raizExiste : Bool
  existentes : List String

/-- mkdir step of mover_a_cuarentena (lines 146-147): create the quarantine
root, with parents and `exist_ok=True`, only when it does not exist yet. -/
def asegurar_raiz (fs : QFS) : QFS :=
  if fs.raizExiste then fs else { fs with raizExiste := true }

/-- Destination computation for one finding (lines 152-159): the quarantine
root joined with the source basename; on collision, the stem gets a
`_<timestamp>` disambiguator before the extension, consuming one clock
reading. -/
def calcular_destino (reloj : Nat → String) (qroot : String) (nombre : String)
    (ex : List String) (t : Nat) : String × Nat :=
  if qroot ++ "/" ++ nombre ∈ ex then
    (qroot ++ "/" ++ stemDe nombre ++ "_" ++ reloj t ++ sufijoDe nombre, t + 1)
  else (qroot ++ "/" ++ nombre, t)

/-- Loop of mover_a_cuarentena (lines 149-167): per finding, compute the
destination; a failing `shutil.move` only prints a message and contributes
nothing to `destinos`; a successful move appends the destination and makes the
destination path exist. -/
def mover_bucle (reloj : Nat → String) (falla : String → String → Bool)
    (qroot : String) : List Finding → QFS → Nat → List String × QFS × Nat
  | [], fs, t => ([], fs, t)
  | info :: resto, fs, t =>
      let origen := info.ruta
      let paso := calcular_destino reloj qroot (nombreDe origen) fs.existentes t
      if falla origen paso.1 then
        mover_bucle reloj falla qroot resto fs paso.2
      else
        let r := mover_bucle reloj falla qroot resto
          { fs with existentes := paso.1 :: fs.existentes } paso.2
        (paso.1 :: r.1, r.2)

/-- mover_a_cuarentena (lines 141-167): ensure the quarantine root exists, then
run the move loop over the findings. -/
def mover_a_cuarentena (reloj : Nat → String) (falla : String → String → Bool)
    (sospechosos : List Finding) (fs : QFS) (t : Nat) : List String × QFS × Nat :=
  mover_bucle reloj falla RUTA_CUARENTENA sospechosos (asegurar_raiz fs) t

/-- QuarantineRecord of the specification (§3): outcome of one move attempt. -/
structure RegistroCuarentena where
  origen : String
  destino : String
  exito : Bool

/-- Specification-side view of the quarantine batch, written from the spec's
words (§4.4: "every input Finding yields exactly one QuarantineRecord (success
or failure)") over the same destination computation and state threading as
`mover_bucle`, for comparison with the source's returned value. -/
def registros_cuarentena (reloj : Nat → String) (falla : String → String → Bool)
    (qroot : String) : List Finding → QFS → Nat → List RegistroCuarentena
  | [], _, _ => []
  | info :: resto, fs, t =>
      let origen := info.ruta
      let paso := calcular_destino reloj qroot (nombreDe origen) fs.existentes t
      if falla origen paso.1 then
        { origen := origen, destino := paso.1, exito := false } ::
          registros_cuarentena reloj falla qroot resto fs paso.2
      else
        { origen := origen, destino := paso.1, exito := true } ::
          registros_cuarentena reloj falla qroot resto
            { fs with existentes := paso.1 :: fs.existentes } paso.2

/-- Entry point (lines 213-226): scan, then quarantine, then report; the
report (`mostrar_informe`, first component) receives `sospechosos` as produced
by the scan, and the console also lists the returned destinations. -/
noncomputable def principal (raiz : Option (List (String × List (String × Fichero))))
    (reloj : Nat → String) (falla : String → String → Bool) (fs : QFS) (t : Nat) :
    List Finding × List String :=
  let sospechosos := recorrer_directorio raiz
  let destinos := (mover_a_cuarentena reloj falla sospechosos fs t).1
  (sospechosos, destinos)

end Detector

namespace Detector

/-! Helper lemmas about the path-name helpers and the quarantine loop. -/

lemma toList_mk (l : List Char) : (String.mk l).toList = l := rfl

lemma mk_append (a b : List Char) : String.mk a ++ String.mk b = String.mk (a ++ b) := rfl

lemma stem_append_sufijo (n : String) : stemDe n ++ sufijoDe n = n := by
  unfold stemDe sufijoDe
  cases h : idxUltimoPunto n.toList with
  | none => exact String.append_empty n
  | some i =>
      dsimp only
      split_ifs with hc
      · rw [mk_append, List.take_append_drop]; rfl
      · exact String.append_empty n

lemma sufijo_suffix (n : String) : (sufijoDe n).toList <:+ n.toList := by
  unfold sufijoDe
  cases h : idxUltimoPunto n.toList with
  | none => exact List.nil_suffix
  | some i =>
      dsimp only
      split_ifs with hc
      · exact List.drop_suffix i _
      · exact List.nil_suffix

lemma minusculas_sufijo_suffix (n : String) :
    (minusculas (sufijoDe n)).toList <:+ (minusculas n).toList := by
  unfold minusculas
  simp only [toList_mk]
  exact (sufijo_suffix n).map Char.toLower

lemma asegurar_raiz_existe (fs : QFS) : (asegurar_raiz fs).raizExiste = true := by
  unfold asegurar_raiz
  split
  · assumption
  · rfl

lemma mover_bucle_raiz (reloj : Nat → String) (falla : String → String → Bool)
    (qroot : String) (l : List Finding) (fs : QFS) (t : Nat) :
    (mover_bucle reloj falla qroot l fs t).2.1.raizExiste = fs.raizExiste := by
  induction l generalizing fs t with
  | nil => rfl
  | cons info resto ih =>
      simp only [mover_bucle]
      split
      · exact ih _ _
      · exact ih _ _

lemma registros_filtrados (reloj : Nat → String) (falla : String → String → Bool)
    (qroot : String) (l : List Finding) (fs : QFS) (t : Nat) :
    (registros_cuarentena reloj falla qroot l fs t).length = l.length
    ∧ (mover_bucle reloj falla qroot l fs t).1
        = (registros_cuarentena reloj falla qroot l fs t).filterMap
            (fun r => if r.exito then some r.destino else none) := by
  induction l generalizing fs t with
  | nil => exact ⟨rfl, rfl⟩
  | cons info resto ih =>
      simp only [mover_bucle, registros_cuarentena]
      split
      · simpa [List.filterMap_cons] using ih fs _
      · simpa [List.filterMap_cons] using ih _ _

lemma longitud_destino_colision (qroot nm ts : String) :
    (qroot ++ "/" ++ nm).length
      < (qroot ++ "/" ++ stemDe nm ++ "_" ++ ts ++ sufijoDe nm).length := by
  have hsplit := congrArg String.length (stem_append_sufijo nm)
  have hguion : ("_" : String).length = 1 := rfl
  simp only [String.length_append] at hsplit ⊢
  omega

lemma motivos_para_casos (nombre : String) (ent : Option ℝ) :
    motivos_para nombre ent = [] ∨ motivos_para nombre ent = ["extension"]
    ∨ motivos_para nombre ent = ["entropia"]
    ∨ motivos_para nombre ent = ["extension", "entropia"] := by
  unfold motivos_para
  cases hx : extension_sospechosa nombre <;> rcases ent with _ | e
  · simp
  · by_cases he : UMBRAL_ENTROPIA ≤ e <;> simp [he]
  · simp
  · by_cases he : UMBRAL_ENTROPIA ≤ e <;> simp [he]

/-! Helper lemmas about the entropy sum. -/

lemma sum_count_eq_length (datos : List Nat) (hb : ∀ b ∈ datos, b < 256) :
    ∑ b ∈ Finset.range 256, datos.count b = datos.length := by
  induction datos with
  | nil => simp
  | cons x xs ih =>
      have hx : x < 256 := hb x (List.mem_cons_self x xs)
      have ihh := ih fun b hbm => hb b (List.mem_cons_of_mem x hbm)
      simp only [List.count_cons, List.length_cons, beq_iff_eq]
      rw [Finset.sum_add_distrib, ihh]
      simp [Finset.sum_ite_eq', Finset.mem_range, hx]

lemma entropia_nonneg (datos : List Nat) : 0 ≤ entropiaShannon datos := by
  unfold entropiaShannon
  refine Finset.sum_nonneg fun b _ => ?_
  split_ifs with h
  · exact le_refl 0
  · have hcpos : 0 < datos.count b := Nat.pos_of_ne_zero h
    have hlpos : 0 < datos.length := lt_of_lt_of_le hcpos (List.count_le_length b datos)
    have hp : 0 < (frecuencias datos b : ℝ) / (datos.length : ℝ) := by
      apply div_pos
      · exact_mod_cast hcpos
      · exact_mod_cast hlpos
    have hp1 : (frecuencias datos b : ℝ) / (datos.length : ℝ) ≤ 1 := by
      rw [div_le_one (by exact_mod_cast hlpos)]
      exact_mod_cast List.count_le_length b datos
    have hlog : Real.logb 2 ((frecuencias datos b : ℝ) / (datos.length : ℝ)) ≤ 0 :=
      Real.logb_nonpos (by norm_num) hp.le hp1
    nlinarith [mul_nonneg hp.le (neg_nonneg.mpr hlog)]

lemma entropia_le_ocho (datos : List Nat) (hb : ∀ b ∈ datos, b < 256)
    (hne : datos ≠ []) : entropiaShannon datos ≤ 8 := by
  have hlenpos : 0 < datos.length := List.length_pos.mpr hne
  have hnR : (0:ℝ) < (datos.length : ℝ) := by exact_mod_cast hlenpos
  have hn0 : (datos.length : ℝ) ≠ 0 := ne_of_gt hnR
  set S : Finset ℕ := (Finset.range 256).filter (fun b => datos.count b ≠ 0) with hS
  have hmemS : ∀ b ∈ S, datos.count b ≠ 0 := by
    intro b hbS
    exact (Finset.mem_filter.mp hbS).2
  have hppos : ∀ b ∈ S, 0 < (datos.count b : ℝ) / (datos.length : ℝ) := by
    intro b hbS
    apply div_pos _ hnR
    exact_mod_cast Nat.pos_of_ne_zero (hmemS b hbS)
  have hsum : entropiaShannon datos
      = ∑ b ∈ S, -((datos.count b : ℝ) / (datos.length : ℝ)
          * Real.logb 2 ((datos.count b : ℝ) / (datos.length : ℝ))) := by
    rw [hS, Finset.sum_filter]
    unfold entropiaShannon frecuencias
    apply Finset.sum_congr rfl
    intro b _
    by_cases h : datos.count b = 0 <;> simp [h]
  have hw1 : ∑ b ∈ S, (datos.count b : ℝ) / (datos.length : ℝ) = 1 := by
    rw [hS, Finset.sum_filter]
    have hcongr : ∀ b ∈ Finset.range 256,
        (if datos.count b ≠ 0 then (datos.count b : ℝ) / (datos.length : ℝ) else 0)
          = (datos.count b : ℝ) / (datos.length : ℝ) := by
      intro b _
      by_cases h : datos.count b = 0 <;> simp [h]
    rw [Finset.sum_congr rfl hcongr, ← Finset.sum_div]
    rw [show ∑ b ∈ Finset.range 256, (datos.count b : ℝ)
        = ((∑ b ∈ Finset.range 256, datos.count b : ℕ) : ℝ) by push_cast; ring]
    rw [sum_count_eq_length datos hb]
    exact div_self hn0
  have hjensen : ∑ b ∈ S, ((datos.count b : ℝ) / (datos.length : ℝ))
        • Real.log (((datos.count b : ℝ) / (datos.length : ℝ))⁻¹)
      ≤ Real.log (∑ b ∈ S, ((datos.count b : ℝ) / (datos.length : ℝ))
        • ((datos.count b : ℝ) / (datos.length : ℝ))⁻¹) := by
    apply (strictConcaveOn_log_Ioi.concaveOn).le_map_sum
    · intro b hbS
      exact (hppos b hbS).le
    · exact hw1
    · intro b hbS
      exact Set.mem_Ioi.mpr (inv_pos.mpr (hppos b hbS))
  have hinner : ∑ b ∈ S, ((datos.count b : ℝ) / (datos.length : ℝ))
      • ((datos.count b : ℝ) / (datos.length : ℝ))⁻¹ = (S.card : ℝ) := by
    have hcongr : ∀ b ∈ S, ((datos.count b : ℝ) / (datos.length : ℝ))
        • ((datos.count b : ℝ) / (datos.length : ℝ))⁻¹ = (1:ℝ) := by
      intro b hbS
      rw [smul_eq_mul, mul_inv_cancel₀ (ne_of_gt (hppos b hbS))]
    rw [Finset.sum_congr rfl hcongr]
    simp
  have hlog2pos : (0:ℝ) < Real.log 2 := Real.log_pos (by norm_num)
  have hterm : ∀ b ∈ S, -((datos.count b : ℝ) / (datos.length : ℝ)
        * Real.logb 2 ((datos.count b : ℝ) / (datos.length : ℝ)))
      = ((datos.count b : ℝ) / (datos.length : ℝ))
        * Real.log (((datos.count b : ℝ) / (datos.length : ℝ))⁻¹) / Real.log 2 := by
    intro b _
    rw [← Real.log_div_log, Real.log_inv]
    ring
  have hScard : (S.card : ℝ) ≤ 256 := by
    have h1 : S.card ≤ (Finset.range 256).card := by
      rw [hS]
      exact Finset.card_filter_le _ _
    have h2 : S.card ≤ 256 := by simpa using h1
    exact_mod_cast h2
  have hSpos : (0:ℝ) < (S.card : ℝ) := by
    obtain ⟨x, hx⟩ := List.exists_mem_of_ne_nil datos hne
    have hxS : x ∈ S := by
      rw [hS]
      refine Finset.mem_filter.mpr ⟨Finset.mem_range.mpr (hb x hx), ?_⟩
      exact Nat.pos_iff_ne_zero.mp (List.count_pos_iff.mpr hx)
    have hcard : 0 < S.card := Finset.card_pos.mpr ⟨x, hxS⟩
    exact_mod_cast hcard
  calc entropiaShannon datos
      = ∑ b ∈ S, ((datos.count b : ℝ) / (datos.length : ℝ))
          * Real.log (((datos.count b : ℝ) / (datos.length : ℝ))⁻¹) / Real.log 2 := by
        rw [hsum]
        exact Finset.sum_congr rfl hterm
    _ = (∑ b ∈ S, ((datos.count b : ℝ) / (datos.length : ℝ))
          • Real.log (((datos.count b : ℝ) / (datos.length : ℝ))⁻¹)) / Real.log 2 := by
        rw [Finset.sum_div]
        simp [smul_eq_mul]
    _ ≤ Real.log (S.card : ℝ) / Real.log 2 := by
        apply div_le_div_of_nonneg_right ?_ hlog2pos.le
        rw [hinner] at hjensen
        exact hjensen
    _ = Real.logb 2 (S.card : ℝ) := Real.log_div_log
    _ ≤ Real.logb 2 256 := Real.logb_le_logb_of_le (by norm_num) hSpos hScard
    _ = 8 := by
        rw [show (256:ℝ) = 2 ^ (8:ℕ) by norm_num, Real.logb_pow,
          Real.logb_self_eq_one (by norm_num)]
        norm_num

lemma entropia_replicate (c n : Nat) (hn : 0 < n) :
    entropiaShannon (List.replicate n c) = 0 := by
  unfold entropiaShannon frecuencias
  apply Finset.sum_eq_zero
  intro b _
  rw [List.count_replicate]
  by_cases hbc : c = b
  · have hbeq : (c == b) = true := by simpa using hbc
    rw [hbeq]
    simp only [if_true, List.length_replicate]
    split_ifs with h
    · rfl
    · rw [div_self (by exact_mod_cast hn.ne' : ((n:ℝ) ≠ 0)), Real.logb_one]
      ring
  · have hbeq : (c == b) = false := by simpa using hbc
    rw [hbeq]
    simp

lemma entropia_perm256 (datos : List Nat) (hlen : datos.length = 256)
    (hcount : ∀ b < 256, datos.count b = 1) :
    entropiaShannon datos = 8 := by
  have hlog : Real.logb 2 ((1:ℝ) / 256) = -8 := by
    rw [show (1:ℝ)/256 = ((256:ℝ))⁻¹ by norm_num, Real.logb_inv,
      show (256:ℝ) = 2 ^ (8:ℕ) by norm_num, Real.logb_pow,
      Real.logb_self_eq_one (by norm_num)]
    norm_num
  unfold entropiaShannon frecuencias
  have hcongr : ∀ b ∈ Finset.range 256,
      (if datos.count b = 0 then (0:ℝ)
       else -((datos.count b : ℝ) / (datos.length : ℝ)
          * Real.logb 2 ((datos.count b : ℝ) / (datos.length : ℝ)))) = 1/32 := by
    intro b hbm
    have hc1 : datos.count b = 1 := hcount b (Finset.mem_range.mp hbm)
    rw [hc1, hlen]
    norm_num [hlog]
  rw [Finset.sum_congr rfl hcongr]
  simp
  norm_num

end Detector

namespace Detector

/-- C1 (counterexample): with one finding whose move fails, the returned output
of `mover_a_cuarentena` is empty, so the input finding yields no
success-or-failure record in the output, contradicting "every input finding
yields exactly one quarantine record in the output". -/
theorem C1_contraejemplo :
    ([⟨"a/x.locked", 3, none, ["extension"]⟩] : List Finding).length = 1
    ∧ (mover_a_cuarentena (fun _ => "20240101000000") (fun _ _ => true)
        [⟨"a/x.locked", 3, none, ["extension"]⟩] ⟨true, []⟩ 0).1.length = 0 :=
  ⟨rfl, rfl⟩

/-- C1 (amended): every input finding is processed — a per-file move failure is
caught and does not abort the remaining findings, conceptually yielding one
success-or-failure record per finding — but the value `mover_a_cuarentena`
returns keeps only the destinations of the successful moves, so failed
findings are dropped from the returned output (reported only by a console
print). -/
theorem C1_registros_solo_exitosos (reloj : Nat → String)
    (falla : String → String → Bool) (qroot : String) (l : List Finding)
    (fs : QFS) (t : Nat) :
    (registros_cuarentena reloj falla qroot l fs t).length = l.length
    ∧ (mover_bucle reloj falla qroot l fs t).1
        = (registros_cuarentena reloj falla qroot l fs t).filterMap
            (fun r => if r.exito then some r.destino else none)
    ∧ (mover_a_cuarentena reloj falla l fs t).1
        = (registros_cuarentena reloj falla RUTA_CUARENTENA l (asegurar_raiz fs) t).filterMap
            (fun r => if r.exito then some r.destino else none) :=
  ⟨(registros_filtrados reloj falla qroot l fs t).1,
   (registros_filtrados reloj falla qroot l fs t).2,
   (registros_filtrados reloj falla RUTA_CUARENTENA l (asegurar_raiz fs) t).2⟩

/-- C2 (counterexample): an inaccessible scan root (`none`) makes
`recorrer_directorio` return the plain empty findings list, the very value an
accessible empty root produces; no scan-level failure distinct from per-file
failures is surfaced to the caller. -/
theorem C2_contraejemplo :
    recorrer_directorio none = recorrer_directorio (some [])
    ∧ recorrer_directorio none = [] :=
  ⟨rfl, rfl⟩

/-- C2 (amended): if the scan root does not exist or is not traversable,
`os.walk` (run with `onerror=None`) yields no entries, so the scan silently
returns the empty findings list — indistinguishable from a clean scan of an
empty tree — and the run continues normally into quarantine and report with
empty results; no scan-level failure is surfaced. -/
theorem C2_raiz_inaccesible_silenciosa (reloj : Nat → String)
    (falla : String → String → Bool) (fs : QFS) (t : Nat) :
    recorrer_directorio none = []
    ∧ recorrer_directorio none = recorrer_directorio (some [])
    ∧ (principal none reloj falla fs t).1 = []
    ∧ (principal none reloj falla fs t).2 = [] :=
  ⟨rfl, rfl, rfl, rfl⟩

end Detector

namespace Detector

/-- C3: the destination for a finding is the quarantine root joined with the
source basename; when that destination already exists the destination gets a
timestamp suffix between stem and extension, so two same-named sources moved
into the same quarantine root (fresh for that basename) produce two distinct
destination paths, both present afterwards, neither overwriting the other. -/
theorem C3_colision_destinos (reloj : Nat → String) (falla : String → String → Bool)
    (qroot : String) (f1 f2 : Finding) (fs : QFS) (t : Nat)
    (hnm : nombreDe f1.ruta = nombreDe f2.ruta)
    (hd0 : qroot ++ "/" ++ nombreDe f1.ruta ∉ fs.existentes)
    (hf1 : falla f1.ruta (qroot ++ "/" ++ nombreDe f1.ruta) = false)
    (hf2 : falla f2.ruta (qroot ++ "/" ++ stemDe (nombreDe f2.ruta) ++ "_" ++ reloj t
      ++ sufijoDe (nombreDe f2.ruta)) = false) :
    (mover_bucle reloj falla qroot [f1, f2] fs t).1
      = [qroot ++ "/" ++ nombreDe f1.ruta,
         qroot ++ "/" ++ stemDe (nombreDe f2.ruta) ++ "_" ++ reloj t
           ++ sufijoDe (nombreDe f2.ruta)]
    ∧ qroot ++ "/" ++ nombreDe f1.ruta
        ≠ qroot ++ "/" ++ stemDe (nombreDe f2.ruta) ++ "_" ++ reloj t
            ++ sufijoDe (nombreDe f2.ruta)
    ∧ qroot ++ "/" ++ nombreDe f1.ruta
        ∈ (mover_bucle reloj falla qroot [f1, f2] fs t).2.1.existentes
    ∧ qroot ++ "/" ++ stemDe (nombreDe f2.ruta) ++ "_" ++ reloj t
        ++ sufijoDe (nombreDe f2.ruta)
        ∈ (mover_bucle reloj falla qroot [f1, f2] fs t).2.1.existentes := by
  have hpaso1 : calcular_destino reloj qroot (nombreDe f1.ruta) fs.existentes t
      = (qroot ++ "/" ++ nombreDe f1.ruta, t) := by
    unfold calcular_destino
    rw [if_neg hd0]
  have hpaso2 : calcular_destino reloj qroot (nombreDe f2.ruta)
      ((qroot ++ "/" ++ nombreDe f1.ruta) :: fs.existentes) t
      = (qroot ++ "/" ++ stemDe (nombreDe f2.ruta) ++ "_" ++ reloj t
          ++ sufijoDe (nombreDe f2.ruta), t + 1) := by
    unfold calcular_destino
    rw [if_pos]
    rw [← hnm]
    exact List.mem_cons_self _ _
  have hrun : mover_bucle reloj falla qroot [f1, f2] fs t
      = ([qroot ++ "/" ++ nombreDe f1.ruta,
          qroot ++ "/" ++ stemDe (nombreDe f2.ruta) ++ "_" ++ reloj t
            ++ sufijoDe (nombreDe f2.ruta)],
         { fs with existentes :=
            (qroot ++ "/" ++ stemDe (nombreDe f2.ruta) ++ "_" ++ reloj t
              ++ sufijoDe (nombreDe f2.ruta))
            :: (qroot ++ "/" ++ nombreDe f1.ruta) :: fs.existentes },
         t + 1) := by
    simp [mover_bucle, hpaso1, hpaso2, hf1, hf2]
  have hne : qroot ++ "/" ++ nombreDe f1.ruta
      ≠ qroot ++ "/" ++ stemDe (nombreDe f2.ruta) ++ "_" ++ reloj t
          ++ sufijoDe (nombreDe f2.ruta) := by
    intro hEq
    have hcong := congrArg String.length hEq
    have hlt := longitud_destino_colision qroot (nombreDe f2.ruta) (reloj t)
    rw [hnm] at hcong
    omega
  refine ⟨by rw [hrun], hne, ?_, ?_⟩
  · rw [hrun]
    exact List.mem_cons_of_mem _ (List.mem_cons_self _ _)
  · rw [hrun]
    exact List.mem_cons_self _ _

/-- C3 (witness): the collision theorem instantiated on two sources named
`x.locked` in different directories, an initially empty quarantine, a fixed
clock and a never-failing move. -/
theorem C3_colision_destinos_witness :
    ("/q" ++ "/" ++ nombreDe "a/x.locked" ∉ (⟨true, []⟩ : QFS).existentes)
    ∧ (mover_bucle (fun _ => "20240101000000") (fun _ _ => false) "/q"
        [⟨"a/x.locked", 3, none, ["extension"]⟩, ⟨"b/x.locked", 4, none, ["extension"]⟩]
        ⟨true, []⟩ 0).1
      = ["/q" ++ "/" ++ nombreDe "a/x.locked",
         "/q" ++ "/" ++ stemDe (nombreDe "b/x.locked") ++ "_" ++ "20240101000000"
           ++ sufijoDe (nombreDe "b/x.locked")]
    ∧ "/q" ++ "/" ++ nombreDe "a/x.locked"
      ≠ "/q" ++ "/" ++ stemDe (nombreDe "b/x.locked") ++ "_" ++ "20240101000000"
          ++ sufijoDe (nombreDe "b/x.locked") := by
  have h := C3_colision_destinos (fun _ => "20240101000000") (fun _ _ => false) "/q"
    ⟨"a/x.locked", 3, none, ["extension"]⟩ ⟨"b/x.locked", 4, none, ["extension"]⟩
    ⟨true, []⟩ 0 (by decide) (by decide) rfl rfl
  exact ⟨by decide, h.1, h.2.1⟩

end Detector

namespace Detector

/-- C4: the classifier produces a finding iff at least one check triggers; the
"extension" reason is present exactly when the name matches the suspicious
pattern and the "entropia" reason exactly when the entropy value is present
and at least the threshold — each membership independent of the other check,
so both checks always run; an absent entropy value never satisfies the
threshold; and `analizar_fichero` returns a finding exactly when the reason
list is non-empty. -/
theorem C4_clasificador_motivos (ruta nombre : String) (ent : Option ℝ) (f : Fichero) :
    (motivos_para nombre ent ≠ [] ↔
      (extension_sospechosa nombre = true ∨ ∃ v, ent = some v ∧ UMBRAL_ENTROPIA ≤ v))
    ∧ ("extension" ∈ motivos_para nombre ent ↔ extension_sospechosa nombre = true)
    ∧ ("entropia" ∈ motivos_para nombre ent ↔ ∃ v, ent = some v ∧ UMBRAL_ENTROPIA ≤ v)
    ∧ motivos_para nombre none = (if extension_sospechosa nombre then ["extension"] else [])
    ∧ ((analizar_fichero ruta f).isSome = true ↔
        motivos_para (nombreDe ruta) (calcular_entropia f.contenido MAX_BYTES_LECTURA) ≠ []) := by
  refine ⟨?_, ?_, ?_, ?_, ?_⟩
  · unfold motivos_para
    cases hx : extension_sospechosa nombre <;> rcases ent with _ | e
    · simp
    · by_cases he : UMBRAL_ENTROPIA ≤ e
      · simp [he]
      · simp [he]
    · simp
    · by_cases he : UMBRAL_ENTROPIA ≤ e <;> simp [he]
  · unfold motivos_para
    cases hx : extension_sospechosa nombre <;> rcases ent with _ | e <;> simp
  · unfold motivos_para
    cases hx : extension_sospechosa nombre <;> rcases ent with _ | e <;> simp
  · unfold motivos_para
    cases hx : extension_sospechosa nombre <;> simp
  · simp only [analizar_fichero]
    split <;> simp [*]

/-- C4 (witness): for the name `report.locked` with absent entropy, the
classifier reports the "extension" reason and a non-empty reason list. -/
theorem C4_clasificador_motivos_witness :
    "extension" ∈ motivos_para "report.locked" (none : Option ℝ)
    ∧ motivos_para "report.locked" (none : Option ℝ) ≠ [] := by
  have hx : extension_sospechosa "report.locked" = true := by decide
  exact ⟨(C4_clasificador_motivos "report.locked" "report.locked" none ⟨none, none⟩).2.1.mpr hx,
    (C4_clasificador_motivos "report.locked" "report.locked" none ⟨none, none⟩).1.mpr (Or.inl hx)⟩

end Detector

namespace Detector

/-- C5: the entropy estimator never reads past `maxBytes` (the result depends
only on the `maxBytes`-byte prefix), returns no value when the file cannot be
opened or read, never fails otherwise (always returns some value on readable
content), and returns exactly `0.0` on an empty read prefix. -/
theorem C5_calcular_entropia_contrato (bytes : List Nat) (maxBytes : Nat) :
    calcular_entropia none maxBytes = none
    ∧ calcular_entropia (some bytes) maxBytes
        = calcular_entropia (some (bytes.take maxBytes)) maxBytes
    ∧ (calcular_entropia (some bytes) maxBytes).isSome = true
    ∧ (bytes.take maxBytes = [] → calcular_entropia (some bytes) maxBytes = some 0) := by
  refine ⟨rfl, ?_, ?_, ?_⟩
  · simp [calcular_entropia, List.take_take]
  · simp only [calcular_entropia]
    split <;> rfl
  · intro h
    simp [calcular_entropia, h]

/-- C5 (witness): the estimator on a zero-length readable file returns exactly
`0.0`, not an absent value. -/
theorem C5_calcular_entropia_contrato_witness :
    ([] : List Nat).take 5 = []
    ∧ calcular_entropia (some []) 5 = some 0 :=
  ⟨rfl, (C5_calcular_entropia_contrato [] 5).2.2.2 rfl⟩

/-- C6: on a non-empty byte prefix the computed Shannon entropy lies in
`[0, 8]`; it is exactly `0` on a run of one repeated byte, exactly `8` on a
length-256 prefix containing each byte value once, and `calcular_entropia`
returns exactly this value for a non-empty readable prefix. -/
theorem C6_entropia_shannon_valores (datos : List Nat) (hb : ∀ b ∈ datos, b < 256) :
    (datos ≠ [] → 0 ≤ entropiaShannon datos ∧ entropiaShannon datos ≤ 8)
    ∧ (∀ c n, 0 < n → datos = List.replicate n c → entropiaShannon datos = 0)
    ∧ ((datos.length = 256 ∧ ∀ b < 256, datos.count b = 1) → entropiaShannon datos = 8)
    ∧ (datos ≠ [] →
        calcular_entropia (some datos) datos.length = some (entropiaShannon datos)) := by
  refine ⟨fun hne => ⟨entropia_nonneg datos, entropia_le_ocho datos hb hne⟩,
    fun c n hn hrep => hrep ▸ entropia_replicate c n hn,
    fun hperm => entropia_perm256 datos hperm.1 hperm.2,
    fun hne => ?_⟩
  simp [calcular_entropia, List.take_length, hne]

/-- C6 (witness): the prefix `[0, 1, ..., 255]` has each byte value exactly
once; its entropy is within `[0, 8]` and equals exactly `8`. -/
theorem C6_entropia_shannon_valores_witness :
    (∀ b ∈ List.range 256, b < 256)
    ∧ (0 ≤ entropiaShannon (List.range 256) ∧ entropiaShannon (List.range 256) ≤ 8)
    ∧ entropiaShannon (List.range 256) = 8 := by
  have hb : ∀ b ∈ List.range 256, b < 256 := fun b h => List.mem_range.mp h
  have hne : List.range 256 ≠ [] := by simp
  have hth := C6_entropia_shannon_valores (List.range 256) hb
  refine ⟨hb, hth.1 hne, hth.2.2.1 ⟨by simp, fun b hblt => ?_⟩⟩
  exact List.count_eq_one_of_mem (List.nodup_range 256) (List.mem_range.mpr hblt)

end Detector

namespace Detector

/-- C7: the scanner skips a file exactly when the lowercased true final
extension is in the exclusion set — and whenever it skips, some excluded
extension is a true suffix of the lowercased name; `photo.locked.jpg` is
excluded while `archive.jpg.locked` is not and proceeds to classification. -/
theorem C7_exclusion_por_sufijo (carpeta nombre : String) (f : Fichero) :
    recorrer_directorio (some [(carpeta, [(nombre, f)])])
      = (if esExcluido nombre then []
         else (analizar_fichero (carpeta ++ "/" ++ nombre) f).toList)
    ∧ (esExcluido nombre = true →
        ∃ ext ∈ EXTENSIONES_EXCLUIDAS, ext.toList <:+ (minusculas nombre).toList)
    ∧ esExcluido "photo.locked.jpg" = true
    ∧ esExcluido "archive.jpg.locked" = false := by
  refine ⟨?_, ?_, by decide, by decide⟩
  · simp only [recorrer_directorio, os_walk, List.foldl_cons, List.foldl_nil]
    by_cases hx : esExcluido nombre = true
    · simp [hx]
    · simp only [hx]
      cases hA : analizar_fichero (carpeta ++ "/" ++ nombre) f <;>
        simp [hA, Option.toList]
  · intro h
    refine ⟨minusculas (sufijoDe nombre), ?_, minusculas_sufijo_suffix nombre⟩
    simpa [esExcluido] using h

/-- C7 (witness): `photo.jpg` is excluded, and the theorem yields an excluded
extension that is a true suffix of the lowercased name. -/
theorem C7_exclusion_por_sufijo_witness :
    esExcluido "photo.jpg" = true
    ∧ ∃ ext ∈ EXTENSIONES_EXCLUIDAS, ext.toList <:+ (minusculas "photo.jpg").toList :=
  ⟨by decide, (C7_exclusion_por_sufijo "d" "photo.jpg" ⟨none, none⟩).2.1 (by decide)⟩

/-- C8: the findings handed to the report are exactly the scanner's output,
computed before any move is attempted, and they do not depend on the move
failure oracle, the clock, or the quarantine state — the quarantine step never
adds, removes, or mutates a finding. -/
theorem C8_informe_inmutable (raiz : Option (List (String × List (String × Fichero))))
    (reloj reloj' : Nat → String) (falla falla' : String → String → Bool)
    (fs fs' : QFS) (t t' : Nat) :
    (principal raiz reloj falla fs t).1 = recorrer_directorio raiz
    ∧ (principal raiz reloj falla fs t).1 = (principal raiz reloj' falla' fs' t').1 :=
  ⟨rfl, rfl⟩

/-- C9: the quarantine operation first ensures the quarantine root exists —
also on the empty findings list — and the creation step is idempotent and a
no-op (hence no failure) when the directory already exists. -/
theorem C9_asegura_raiz (reloj : Nat → String) (falla : String → String → Bool)
    (sospechosos : List Finding) (fs : QFS) (t : Nat) :
    (mover_a_cuarentena reloj falla sospechosos fs t).2.1.raizExiste = true
    ∧ (mover_a_cuarentena reloj falla [] fs t).2.1.raizExiste = true
    ∧ asegurar_raiz (asegurar_raiz fs) = asegurar_raiz fs
    ∧ (fs.raizExiste = true → asegurar_raiz fs = fs) := by
  refine ⟨?_, ?_, ?_, ?_⟩
  · rw [mover_a_cuarentena, mover_bucle_raiz, asegurar_raiz_existe]
  · rw [mover_a_cuarentena, mover_bucle_raiz, asegurar_raiz_existe]
  · cases h : fs.raizExiste <;> simp [asegurar_raiz, h]
  · intro h
    simp [asegurar_raiz, h]

/-- C9 (witness): on an empty findings list and an already-existing quarantine
root the directory still exists afterwards, and the creation step left the
state untouched. -/
theorem C9_asegura_raiz_witness :
    (mover_a_cuarentena (fun _ => "20240101000000") (fun _ _ => false) []
      ⟨true, []⟩ 0).2.1.raizExiste = true
    ∧ asegurar_raiz ⟨true, []⟩ = ⟨true, []⟩ :=
  ⟨(C9_asegura_raiz (fun _ => "20240101000000") (fun _ _ => false) [] ⟨true, []⟩ 0).2.1,
   (C9_asegura_raiz (fun _ => "20240101000000") (fun _ _ => false) [] ⟨true, []⟩ 0).2.2.2 rfl⟩

/-- C10: every finding the classifier produces has a non-empty, duplicate-free
reason list that is a sublist of `["extension", "entropia"]` in that order,
and carries exactly the computed entropy value (possibly absent). -/
theorem C10_motivos_invariante (ruta : String) (f : Fichero) (info : Finding)
    (h : analizar_fichero ruta f = some info) :
    info.motivos ≠ [] ∧ info.motivos.Nodup
    ∧ info.motivos.Sublist ["extension", "entropia"]
    ∧ info.entropia = calcular_entropia f.contenido MAX_BYTES_LECTURA := by
  simp only [analizar_fichero] at h
  split at h
  · exact absurd h (by simp)
  · rename_i hne
    rcases Option.some.injEq .. ▸ h with rfl
    have hm := motivos_para_casos (nombreDe ruta)
      (calcular_entropia f.contenido MAX_BYTES_LECTURA)
    rcases hm with hm | hm | hm | hm <;> simp_all

/-- C10 (witness): the classifier on `d/report.locked` with unreadable content
produces a finding whose reason list is `["extension"]` — non-empty,
duplicate-free, ordered — and whose entropy field is the computed (absent)
value. -/
theorem C10_motivos_invariante_witness :
    analizar_fichero "d/report.locked" ⟨none, some 10⟩
      = some ⟨"d/report.locked", 10, none, ["extension"]⟩
    ∧ (⟨"d/report.locked", 10, none, ["extension"]⟩ : Finding).motivos ≠ []
    ∧ (⟨"d/report.locked", 10, none, ["extension"]⟩ : Finding).motivos.Nodup
    ∧ (⟨"d/report.locked", 10, none, ["extension"]⟩ : Finding).motivos.Sublist
        ["extension", "entropia"]
    ∧ (⟨"d/report.locked", 10, none, ["extension"]⟩ : Finding).entropia
        = calcular_entropia (none : Option (List Nat)) MAX_BYTES_LECTURA := by
  have hx : extension_sospechosa (nombreDe "d/report.locked") = true := by decide
  have h : analizar_fichero "d/report.locked" ⟨none, some 10⟩
      = some ⟨"d/report.locked", 10, none, ["extension"]⟩ := by
    simp [analizar_fichero, calcular_entropia, motivos_para, hx]
  have hc := C10_motivos_invariante "d/report.locked" ⟨none, some 10⟩ _ h
  exact ⟨h, hc.1, hc.2.1, hc.2.2.1, hc.2.2.2⟩

end Detector
